import Mathlib

/-!
Verification of the browser-py server and file-tool layer.

The definitions below are shallow embeddings of the Python source:

* `BrowserPy.Files`   — `browser_py/agent/tools/files.py` (path resolution,
  workspace sandbox check, read and delete actions);
* `BrowserPy.Server`  — `browser_py/server/app.py` (WebSocket broadcast,
  payload construction, APScheduler job loading, scheduled-task logging);
* `BrowserPy.Concurrency` — the interleaving semantics of the two chat
  entry points of `app.py`;
* `BrowserPy.AgentModel`  — process-level state touched by the interactive
  and the scheduled execution paths.

Machine integers do not occur on the modelled paths; Python strings are
modelled as Lean `String`, Python lists as Lean `List`.
-/

namespace BrowserPy

/-- A single-quote character, built by code point so that string literals in
this file stay plain. Used to spell Python messages that quote a word. -/
def sq : String := String.singleton (Char.ofNat 39)

/-- Split a character list at every character satisfying `p`, keeping empty
pieces, as the Python string methods `split(sep)` do. Structural recursion
keeps it kernel-reducible. -/
def splitWhen (p : Char → Bool) : List Char → List (List Char)
  | [] => [[]]
  | c :: rest =>
    let tail := splitWhen p rest
    if p c then [] :: tail
    else
      match tail with
      | [] => [[c]]
      | t :: ts => (c :: t) :: ts

namespace Files

/-- An absolute filesystem path as its list of components (no empty, no dot
components once normalized). -/
abbrev PathComps := List String

/-- Embeds the path-separator parse performed by `Path`: the textual path
split at every slash. -/
def pathComponents (path : String) : List String :=
  (splitWhen (fun c => c = '/') path.data).map String.mk

/-- Embeds POSIX path normalization as performed by `Path.resolve` on a
component list: empty and dot components vanish, a dot-dot component removes
the last component kept so far (at the root it vanishes). -/
def pyNormalize (comps : List String) : PathComps :=
  comps.foldl
    (fun acc c =>
      if c = "" ∨ c = "." then acc
      else if c = ".." then acc.dropLast
      else acc ++ [c])
    []

/-- Embeds `(self.workspace / path).resolve()` from `FilesTool._resolve`
(files.py line 70): a relative `path` is joined to the workspace components,
an absolute `path` replaces them; the result is normalized. The workspace is
given as an already-normalized absolute component list, which is what the
`workspace` property guarantees (files.py lines 60-66). -/
def resolvePath (ws : PathComps) (path : String) : PathComps :=
  let comps := pathComponents path
  if path.data.head? = some '/' then pyNormalize comps
  else pyNormalize (ws ++ comps)

/-- Embeds `str(Path)` for an absolute path: components joined by slashes
with a leading slash. -/
def render (p : PathComps) : String :=
  p.foldl (fun acc c => acc ++ "/" ++ c) ""

/-- Embeds the Python string method `startswith`: character-list prefix
test. -/
def pyStartswith (s pre : String) : Bool :=
  pre.data.isPrefixOf s.data

/-- Embeds `FilesTool._resolve` (files.py lines 68-74): resolve the path,
then guard with `str(resolved).startswith(str(ws_resolved))`; a failed guard
raises `PermissionError`, modelled as `Except.error` carrying the message. -/
def filesResolve (ws : PathComps) (path : String) : Except String PathComps :=
  let resolved := resolvePath ws path
  if pyStartswith (render resolved) (render ws) then .ok resolved
  else .error ("Access denied: path escapes workspace — " ++ path)

/-- The resolved path `p` lies outside the workspace root `ws`: `ws` is not
an ancestor-or-self of `p` in the directory tree. -/
def escapesWorkspace (ws p : PathComps) : Bool :=
  !(ws.isPrefixOf p)

/-- The filesystem visible to the tool: a set of directories and a map from
file paths to contents, both keyed by absolute component lists. -/
structure FS where
  dirs : List PathComps
  files : List (PathComps × String)
deriving DecidableEq

def FS.existsPath (fs : FS) (p : PathComps) : Bool :=
  fs.dirs.contains p || (fs.files.map Prod.fst).contains p

def FS.readFile (fs : FS) (p : PathComps) : Option String :=
  (fs.files.find? (fun e => e.1 == p)).map Prod.snd

/-- Embeds `FilesTool.execute` with action `read` together with `_read`
(files.py lines 76-124): a `PermissionError` raised by `_resolve` is caught
by `execute` and rendered as a `Permission denied:` result; a missing path
gives `File not found:`; a directory is refused; otherwise the content is
returned, truncated past 50000 characters. No exception escapes. -/
def executeRead (fs : FS) (ws : PathComps) (path : String) : String :=
  if path = "" then "Error: " ++ sq ++ "path" ++ sq ++ " required"
  else
    match filesResolve ws path with
    | .error e => "Permission denied: " ++ e
    | .ok resolved =>
      if !fs.existsPath resolved then "File not found: " ++ path
      else if fs.dirs.contains resolved then
        sq ++ path ++ sq ++ " is a directory. Use action=" ++ sq ++ "list" ++ sq ++ " instead."
      else
        match fs.readFile resolved with
        | none => "File not found: " ++ path
        | some content =>
          if content.length > 50000 then
            String.mk (content.data.take 50000) ++ "\n\n... (truncated, " ++
              Nat.repr content.length ++ " chars total)"
          else content

/-- Embeds `FilesTool.execute` with action `delete` together with `_delete`
(files.py lines 76-103 and 194-208) over the filesystem model: empty path
refused first, then resolution (escape caught as `Permission denied:`),
then existence, then the workspace-root guard, then `shutil.rmtree` for a
directory (removing everything at or below it) or `unlink` for a file.
Returns the result text and the filesystem afterwards. -/
def filesDelete (fs : FS) (ws : PathComps) (path : String) : String × FS :=
  if path = "" then ("Error: " ++ sq ++ "path" ++ sq ++ " required", fs)
  else
    match filesResolve ws path with
    | .error e => ("Permission denied: " ++ e, fs)
    | .ok resolved =>
      if !fs.existsPath resolved then ("Not found: " ++ path, fs)
      else if resolved = ws then ("Error: cannot delete the workspace root", fs)
      else if fs.dirs.contains resolved then
        ("Deleted directory: " ++ path,
          { dirs := fs.dirs.filter (fun d => !(resolved.isPrefixOf d)),
            files := fs.files.filter (fun e => !(resolved.isPrefixOf e.1)) })
      else
        ("Deleted: " ++ path,
          { fs with files := fs.files.filter (fun e => e.1 != resolved) })

end Files

namespace Server

/-- A live WebSocket connection as the broadcast path sees it: an identity
and whether a delivery attempt to it raises. -/
structure Conn where
  id : Nat
  sendFails : Bool
deriving DecidableEq

/-- Embeds `_broadcast` (app.py lines 63-72). The `for` loop attempts
delivery to every client registered in `_ws_clients`, in registration
order; an attempt that raises is collected in `dead`, a successful one
delivers the message. After the loop every dead client is removed with
`list.remove` (first occurrence). Returns the clients the message was
delivered to and the registry afterwards; the function is total, so no
error reaches the broadcast caller. -/
def broadcast (clients : List Conn) : List Conn × List Conn :=
  let scan := clients.foldl
    (fun (acc : List Conn × List Conn) ws =>
      if ws.sendFails then (acc.1, acc.2 ++ [ws]) else (acc.1 ++ [ws], acc.2))
    ([], [])
  (scan.1, scan.2.foldl (fun cs w => cs.erase w) clients)

/-- The broadcast payload built by `_on_tool_call`. The JSON field named
`type` is spelled `kind` here. -/
structure ToolCallPayload where
  kind : String
  tool : String
  params : List (String × String)
  result : String
deriving DecidableEq

/-- Embeds `_on_tool_call` (app.py lines 46-54): of all fields only
`result` is truncated, by the slice `result[:2000]`; `params` passes
through whole. -/
def onToolCallPayload (name : String) (params : List (String × String))
    (result : String) : ToolCallPayload :=
  { kind := "tool_call", tool := name, params := params,
    result := String.mk (result.data.take 2000) }

/-- The broadcast payload built by `_on_message`. -/
structure MessagePayload where
  kind : String
  content : String
deriving DecidableEq

/-- Embeds `_on_message` (app.py lines 57-60): the agent message text is
placed in the payload whole; no truncation is applied. -/
def onMessagePayload (text : String) : MessagePayload :=
  { kind := "message", content := text }

/-- A stored cron job as `_load_jobs` hands it to `_start_scheduler`. The
job dictionary fields read by the loader are modelled as record fields. -/
structure Job where
  task : String
  paused : Bool
  scheduleType : String
  cron : String
  timezone : Option String
  intervalMinutes : Option Nat
  runAt : String
deriving DecidableEq

/-- A timer registration handed to `scheduler.add_job`. -/
inductive Trigger where
  | cron (minute hour day month dayOfWeek : String) (tz : Option String)
  | interval (minutes : Nat)
  | date (runAt : String)
deriving DecidableEq

/-- Embeds the Python string method `split` with no argument: split on
whitespace runs, discarding empty fields. -/
def pySplitWs (s : String) : List String :=
  ((splitWhen Char.isWhitespace s.data).map String.mk).filter (fun f => f ≠ "")

/-- Embeds the expression `job.get("timezone") or None` (app.py line 218):
a falsy timezone (absent or empty) becomes `none`. -/
def orNone : Option String → Option String
  | some "" => none
  | t => t

/-- Embeds the body of the per-job loop of `_start_scheduler` (app.py lines
203-237): the timer registered for one job, if any. A paused job is skipped
by `continue`; a cron job whose expression does not split into exactly five
fields falls through the `len(parts) == 5` guard and registers nothing; an
unrecognized schedule type registers nothing. No branch emits any
diagnostic. -/
def loadJob (j : Job) : Option Trigger :=
  if j.paused then none
  else if j.scheduleType = "cron" then
    let parts := pySplitWs j.cron
    if h5 : parts.length = 5 then
      some (.cron (parts.get ⟨0, by omega⟩) (parts.get ⟨1, by omega⟩)
        (parts.get ⟨2, by omega⟩) (parts.get ⟨3, by omega⟩)
        (parts.get ⟨4, by omega⟩) (orNone j.timezone))
    else none
  else if j.scheduleType = "interval" then
    some (.interval (j.intervalMinutes.getD 60))
  else if j.scheduleType = "date" then
    some (.date j.runAt)
  else none

/-- Embeds `_start_scheduler` (app.py lines 188-239): iterate the loaded job
dictionary (an association list keyed by job id, keys unique) in order,
registering one timer per eligible job, and collect the diagnostics the
loop prints — the source prints nothing in any branch, so that list is
empty. `_load_jobs` itself lives in `tools/cron.py`; only its output, the
`jobs` argument, matters here. -/
def startScheduler (jobs : List (String × Job)) :
    List (String × Trigger) × List String :=
  (jobs.foldl
    (fun acc jj =>
      match loadJob jj.2 with
      | some tr => acc ++ [(jj.1, tr)]
      | none => acc)
    [],
   [])

/-- A job fires — i.e. produces scheduled Executions — only through a timer
registered for its id: `scheduler.add_job(_run_scheduled_task, ...)` is the
sole producer of scheduled Executions in the server. -/
def registersTimer (jobs : List (String × Job)) (jid : String) : Prop :=
  ∃ tr, (jid, tr) ∈ (startScheduler jobs).1

/-- Success-side Execution Logger record written by `_run_scheduled_task`
(app.py lines 253-257): the artifact name is the completion second rendered
in decimal followed by `.log`, the content carries the task and the chat
result. -/
def successRecord (t : Nat) (task result : String) : String × String :=
  (Nat.repr t ++ ".log",
   "Task: " ++ task ++ "\n\nResult:\n" ++ result ++ "\n")

/-- Error-side Execution Logger record written by `_run_scheduled_task`
(app.py lines 258-262): name suffixed `_error.log`, content carries the
task and the exception text. -/
def errorRecord (t : Nat) (task err : String) : String × String :=
  (Nat.repr t ++ "_error.log",
   "Task: " ++ task ++ "\n\nError:\n" ++ err ++ "\n")

/-- Embeds the try/except of `_run_scheduled_task` (app.py lines 251-262):
the list of Execution Logger records written for one fire that completes at
second `t` with the given chat outcome — the success branch writes the
success record, the except branch writes the error record. -/
def cronLogRecords (t : Nat) (task : String) (outcome : Except String String) :
    List (String × String) :=
  match outcome with
  | .ok result => [successRecord t task result]
  | .error e => [errorRecord t task e]

/-- One scheduled Execution as the logger sees it: the task text, the
completion second, and whether the chat call raised. -/
structure Execution where
  task : String
  time : Nat
  failed : Bool
deriving DecidableEq

/-- The artifact identity `_run_scheduled_task` derives for an Execution:
the name of the log file it writes, a function of the completion second and
the outcome kind only. -/
def artifactName (e : Execution) : String :=
  if e.failed then Nat.repr e.time ++ "_error.log"
  else Nat.repr e.time ++ ".log"

/-- Embeds `Path.write_text` on the log directory, viewed as a map from
file name to content: writing an existing name replaces its content,
writing a new name appends an entry. -/
def writeLog (dir : List (String × String)) (name content : String) :
    List (String × String) :=
  if (dir.map Prod.fst).contains name then
    dir.map (fun p => if p.1 = name then (name, content) else p)
  else dir ++ [(name, content)]

end Server

namespace NatRepr

/-- Decimal value of one digit character; inverse of `Nat.digitChar` on
digits. -/
def digitVal (c : Char) : Nat :=
  if c = '0' then 0 else if c = '1' then 1 else if c = '2' then 2
  else if c = '3' then 3 else if c = '4' then 4 else if c = '5' then 5
  else if c = '6' then 6 else if c = '7' then 7 else if c = '8' then 8
  else 9

/-- Value of a most-significant-first decimal digit string. -/
def digitsVal (l : List Char) : Nat :=
  l.foldl (fun a c => 10 * a + digitVal c) 0

/-- Fuel-free restatement of `Nat.toDigits 10`: the decimal digit
characters of `n`, most significant first. -/
def myDigits (n : Nat) : List Char :=
  if _h : n < 10 then [Nat.digitChar n]
  else myDigits (n / 10) ++ [Nat.digitChar (n % 10)]
decreasing_by exact Nat.div_lt_self (by omega) (by omega)

end NatRepr

namespace Concurrency

/-- Which of the two concurrently submitted Turns a session mutation step
belongs to. -/
inductive TurnId where
  | A
  | B
deriving DecidableEq

/-- Modelled from the spec: the number of Session mutation steps one
`Agent.chat` call applies. `Agent.chat` lives in `agent/loop.py`, which is
not under `src/`; the Session contract of the spec (one conversation as an
ordered message sequence; a Turn is one request/response cycle) gives a
turn at least the user-message append and the assistant-reply append, and
the Agent Session is an external dependency with a plain request/response
contract, so the call itself provides no serialization. Two steps per turn
are enough to express interleaving. -/
def turnSteps : Nat := 2

/-- State of the server process while two chat requests are being served:
per worker thread, how many session mutation steps of its `agent.chat`
call have executed; and the interactive session history as the ordered
list of mutation steps applied to it, tagged with the originating turn and
the step index. -/
structure SysState where
  pcA : Nat
  pcB : Nat
  history : List (TurnId × Nat)
deriving DecidableEq

/-- One scheduler step of the process serving two concurrent `/api/chat`
requests (app.py lines 90-106) or `/ws` chat messages on two connections
(app.py lines 150-183): each handler executes
`await loop.run_in_executor(None, agent.chat, message)`, so the two
`agent.chat` calls run on two distinct threads of the default executor
pool. Neither handler acquires `_agent_lock` (declared at app.py line 27
and never used anywhere), so a step of either thread is enabled whenever
that thread has steps left — the relation carries no mutual-exclusion
guard. -/
inductive Step : SysState → SysState → Prop where
  | stepA (s : SysState) (h : s.pcA < turnSteps) :
      Step s ⟨s.pcA + 1, s.pcB, s.history ++ [(.A, s.pcA)]⟩
  | stepB (s : SysState) (h : s.pcB < turnSteps) :
      Step s ⟨s.pcA, s.pcB + 1, s.history ++ [(.B, s.pcB)]⟩

/-- Both requests submitted, neither turn started. -/
def init : SysState := ⟨0, 0, []⟩

/-- States the process can reach from `init`. -/
inductive Reachable : SysState → Prop where
  | refl : Reachable init
  | tail {s s' : SysState} : Reachable s → Step s s' → Reachable s'

/-- A complete two-turn history is serialized when the steps of each turn
are contiguous: turn tags AABB or BBAA, never interleaved. -/
def serializedTags (l : List TurnId) : Bool :=
  l == [.A, .A, .B, .B] || l == [.B, .B, .A, .A]

end Concurrency

namespace AgentModel

/-- The per-Session state of one `Agent` instance that the server touches:
conversation history plus the constructor arguments `_get_agent` and
`_run_scheduled_task` pass. -/
structure AgentState where
  messages : List (String × String)
  browserProfile : Option String
  shellEnabled : Bool
deriving DecidableEq

/-- Modelled from the spec: constructing `Agent(...)` (in `agent/loop.py`,
not under `src/`) creates a fresh, disposable Session whose conversation
history starts empty — the spec states each Scheduled Execution uses a
fresh Session that never shares state with the interactive one. -/
def mkAgent (profile : Option String) (shellEnabled : Bool) : AgentState :=
  { messages := [], browserProfile := profile, shellEnabled := shellEnabled }

/-- Modelled from the spec: `Agent.chat` (in `agent/loop.py`, not under
`src/`) appends the user message and the computed reply to the Session it
was called on and returns the reply. -/
def agentChat (a : AgentState) (userMsg reply : String) : AgentState × String :=
  ({ a with messages := a.messages ++ [("user", userMsg), ("assistant", reply)] },
   reply)

/-- The process-wide server state the two execution lanes can see: the
module global `_agent` (the interactive Session, `None` until first use)
and the on-disk cron log directory. -/
structure ServerState where
  interactiveAgent : Option AgentState
  cronLogDir : List (String × String)
deriving DecidableEq

/-- Embeds `_run_scheduled_task` (app.py lines 242-262) against the process
state: a brand-new `Agent` is constructed from the configuration — the
function never calls `_get_agent` and never reads or writes the module
global `_agent` — the fresh instance runs `agent.chat(task)`, and one log
record lands in the cron log directory. The chat outcome is a parameter
(the reply text on success, the exception text on failure). Returns the
process state afterwards together with the final state of the disposable
session, which the source discards. -/
def runScheduledTask (g : ServerState) (profile : Option String)
    (shellEnabled : Bool) (task : String) (t : Nat)
    (outcome : Except String String) : ServerState × AgentState :=
  let agent := mkAgent profile shellEnabled
  let final :=
    match outcome with
    | .ok reply => (agentChat agent task reply).1
    | .error _ => agent
  ({ interactiveAgent := g.interactiveAgent,
     cronLogDir :=
       (Server.cronLogRecords t task outcome).foldl
         (fun d r => Server.writeLog d r.1 r.2) g.cronLogDir },
   final)

/-- Embeds the interactive chat path (app.py lines 90-106): `_get_agent`
returns the module-global Session, creating it on first use, and
`agent.chat` mutates only that instance; the handler touches no cron log. -/
def interactiveChat (g : ServerState) (profile : Option String)
    (shellEnabled : Bool) (msg reply : String) : ServerState × String :=
  let agent :=
    match g.interactiveAgent with
    | some a => a
    | none => mkAgent profile shellEnabled
  let step := agentChat agent msg reply
  ({ interactiveAgent := some step.1, cronLogDir := g.cronLogDir }, step.2)

end AgentModel

/-! ### Theorems -/

namespace Files

theorem pyStartswith_self (s : String) : pyStartswith s s = true := by
  simp [pyStartswith, List.isPrefixOf_iff_prefix]

theorem filesResolve_of_resolve_eq_ws {ws : PathComps} {path : String}
    (h : resolvePath ws path = ws) : filesResolve ws path = .ok ws := by
  simp [filesResolve, h, pyStartswith_self]

/-- C10 (amended): a delete whose nonempty path resolves to the workspace
root is refused with the root-protection message and removes nothing —
`_delete` compares the resolved path against the workspace before any
removal. The root itself exists because the `workspace` property creates
it before `_resolve` runs. -/
theorem c10_delete_root_guard (fs : FS) (ws : PathComps) (path : String)
    (hpath : path ≠ "") (hres : resolvePath ws path = ws)
    (hws : ws ∈ fs.dirs) :
    filesDelete fs ws path = ("Error: cannot delete the workspace root", fs) := by
  have hex : fs.existsPath ws = true := by
    simp [FS.existsPath]
    left
    simpa using hws
  simp [filesDelete, hpath, filesResolve_of_resolve_eq_ws hres, hex]

/-- C10 witness: deleting `"."` in a workspace rooted at `/home/user/ws`
hits the guard and leaves the filesystem untouched. -/
theorem c10_delete_root_guard_witness :
    filesDelete ⟨[["home", "user", "ws"]], []⟩ ["home", "user", "ws"] "." =
      ("Error: cannot delete the workspace root", ⟨[["home", "user", "ws"]], []⟩) :=
  c10_delete_root_guard ⟨[["home", "user", "ws"]], []⟩ ["home", "user", "ws"] "."
    (by decide) (by decide) (by decide)

/-- C10 counterexample: the empty path also resolves to the workspace root
— `Path(ws) / ""` is `Path(ws)` — yet `_delete` answers it with the
missing-argument message, not with the root-protection message claimed for
every path resolving to the root. Nothing is removed either way. -/
theorem c10_counterexample :
    resolvePath ["home", "user", "ws"] "" = ["home", "user", "ws"] ∧
    (filesDelete ⟨[["home", "user", "ws"]], []⟩ ["home", "user", "ws"] "").1 ≠
      "Error: cannot delete the workspace root" ∧
    (filesDelete ⟨[["home", "user", "ws"]], []⟩ ["home", "user", "ws"] "").2 =
      ⟨[["home", "user", "ws"]], []⟩ := by
  refine ⟨by decide, ?_, by decide⟩
  decide

/-- C5: the sandbox guard of `FilesTool._resolve` compares rendered path
strings with `startswith`, so a sibling of the workspace whose name extends
the workspace name character-wise defeats it: from workspace
`/home/user/ws`, the argument `../wsx/secret.txt` resolves to
`/home/user/wsx/secret.txt` — outside the workspace root — yet `_resolve`
accepts it and `execute` reads the outside file instead of returning a
Permission denied result. -/
theorem c5_startswith_escape :
    escapesWorkspace ["home", "user", "ws"]
      (resolvePath ["home", "user", "ws"] "../wsx/secret.txt") = true ∧
    filesResolve ["home", "user", "ws"] "../wsx/secret.txt" =
      .ok ["home", "user", "wsx", "secret.txt"] ∧
    executeRead
      ⟨[["home", "user", "ws"]],
        [(["home", "user", "wsx", "secret.txt"], "TOPSECRET")]⟩
      ["home", "user", "ws"] "../wsx/secret.txt" = "TOPSECRET" :=
  ⟨by decide, rfl, by decide⟩

end Files

namespace Server

theorem broadcast_scan (l : List Conn) (acc : List Conn × List Conn) :
    l.foldl
      (fun (acc : List Conn × List Conn) ws =>
        if ws.sendFails then (acc.1, acc.2 ++ [ws]) else (acc.1 ++ [ws], acc.2))
      acc =
    (acc.1 ++ l.filter (fun c => !c.sendFails),
     acc.2 ++ l.filter (fun c => c.sendFails)) := by
  induction l generalizing acc with
  | nil => simp
  | cons x xs ih =>
    by_cases hx : x.sendFails <;>
      simp [hx, ih, List.filter_cons]

theorem erase_foldl_not_mem (x : Conn) (ds : List Conn) (hx : x ∉ ds) :
    ∀ l : List Conn,
      ds.foldl (fun cs w => cs.erase w) (x :: l) =
        x :: ds.foldl (fun cs w => cs.erase w) l := by
  induction ds with
  | nil => intro l; simp
  | cons d ds ih =>
    intro l
    have hxd : ¬ x = d := by
      rintro rfl
      exact hx (List.mem_cons_self _ _)
    have hstep : (x :: l).erase d = x :: l.erase d := by
      simp [List.erase_cons, hxd]
    have hx' : x ∉ ds := fun hmem => hx (List.mem_cons_of_mem _ hmem)
    simp only [List.foldl_cons, hstep]
    exact ih hx' (l.erase d)

theorem erase_foldl_filter (p : Conn → Bool) (l : List Conn) :
    (l.filter p).foldl (fun cs w => cs.erase w) l =
      l.filter (fun c => !p c) := by
  induction l with
  | nil => simp
  | cons x xs ih =>
    cases hx : p x with
    | true =>
      have hl : (x :: xs).filter p = x :: xs.filter p := by
        simp [List.filter_cons, hx]
      have hr : (x :: xs).filter (fun c => !p c) = xs.filter (fun c => !p c) := by
        simp [List.filter_cons, hx]
      rw [hl, hr, List.foldl_cons, List.erase_cons_head]
      exact ih
    | false =>
      have hnx : x ∉ xs.filter p := by
        intro hmem
        have hpx := (List.mem_filter.1 hmem).2
        rw [hx] at hpx
        exact Bool.noConfusion hpx
      have hl : (x :: xs).filter p = xs.filter p := by
        simp [List.filter_cons, hx]
      have hr : (x :: xs).filter (fun c => !p c) = x :: xs.filter (fun c => !p c) := by
        simp [List.filter_cons, hx]
      rw [hl, hr, erase_foldl_not_mem x (xs.filter p) hnx, ih]

theorem filter_length_split (p : Conn → Bool) (l : List Conn) :
    (l.filter (fun c => !p c)).length + (l.filter p).length = l.length := by
  induction l with
  | nil => rfl
  | cons x xs ih => by_cases hx : p x <;> simp [List.filter_cons, hx] <;> omega

/-- C2: `_broadcast` to K registered Connections attempts delivery to each
of them in order; the message reaches exactly the Connections whose send
does not raise — K minus f of them, f being the raising ones — exactly the
f raising Connections are removed from the registry, and the function
returns normally (it is total), so no error reaches the caller. -/
theorem c2_broadcast_best_effort (clients : List Conn) :
    (broadcast clients).1 = clients.filter (fun c => !c.sendFails) ∧
    (broadcast clients).2 = clients.filter (fun c => !c.sendFails) ∧
    (broadcast clients).1.length + (clients.filter (fun c => c.sendFails)).length
      = clients.length := by
  have hscan := broadcast_scan clients ([], [])
  refine ⟨?_, ?_, ?_⟩
  · simp [broadcast, hscan]
  · simp [broadcast, hscan, erase_foldl_filter]
  · simp only [broadcast, hscan, List.nil_append]
    exact filter_length_split _ clients

/-- C9 counterexample: message payloads are not size-capped — the content
field of the `_on_message` payload is the full agent message, so no bound
holds for every broadcast payload. -/
theorem c9_counterexample :
    ¬ ∃ B : Nat, ∀ text : String, (onMessagePayload text).content.length ≤ B := by
  rintro ⟨B, hB⟩
  have h := hB (String.mk (List.replicate (B + 1) 'a'))
  have h2 : (onMessagePayload (String.mk (List.replicate (B + 1) 'a'))).content.length
      = B + 1 := by
    show (List.replicate (B + 1) 'a').length = B + 1
    exact List.length_replicate _ _
  rw [h2] at h
  omega

/-- C9 (amended): only the tool-call result field is capped — it is a
prefix of the tool result of length at most 2000 — while `_on_message`
places the message text in the payload whole, so message payloads grow
with the message. -/
theorem c9_tool_result_capped (toolName : String)
    (params : List (String × String)) (result text : String) :
    (onToolCallPayload toolName params result).result.data <+: result.data ∧
    (onToolCallPayload toolName params result).result.length ≤ 2000 ∧
    (onMessagePayload text).content = text := by
  refine ⟨?_, ?_, rfl⟩
  · simpa [onToolCallPayload] using List.take_prefix 2000 result.data
  · show (result.data.take 2000).length ≤ 2000
    rw [List.length_take]
    exact min_le_left _ _

theorem startScheduler_timers (jobs : List (String × Job)) :
    (startScheduler jobs).1 =
      jobs.filterMap (fun jj => (loadJob jj.2).map (fun tr => (jj.1, tr))) := by
  have key : ∀ (js : List (String × Job)) (acc : List (String × Trigger)),
      js.foldl
        (fun acc jj =>
          match loadJob jj.2 with
          | some tr => acc ++ [(jj.1, tr)]
          | none => acc) acc =
      acc ++ js.filterMap (fun jj => (loadJob jj.2).map (fun tr => (jj.1, tr))) := by
    intro js
    induction js with
    | nil => intro acc; simp
    | cons jj rest ih =>
      intro acc
      cases hload : loadJob jj.2 with
      | none => simp [hload, ih, List.filterMap_cons]
      | some tr => simp [hload, ih, List.filterMap_cons]
  simpa using key jobs []

theorem mem_assoc_eq (jobs : List (String × Job)) (jid : String) (j j' : Job)
    (hnd : (jobs.map Prod.fst).Nodup) (h1 : (jid, j) ∈ jobs)
    (h2 : (jid, j') ∈ jobs) : j = j' := by
  induction jobs with
  | nil => cases h1
  | cons xj rest ih =>
    obtain ⟨xk, xv⟩ := xj
    rw [List.map_cons] at hnd
    obtain ⟨hhead, htail⟩ := List.nodup_cons.1 hnd
    rcases List.mem_cons.1 h1 with he1 | h1r
    · rcases List.mem_cons.1 h2 with he2 | h2r
      · have hj : j = xv := congrArg Prod.snd he1
        have hj' : j' = xv := congrArg Prod.snd he2
        rw [hj, hj']
      · exfalso
        apply hhead
        have hk : xk = jid := (congrArg Prod.fst he1).symm
        rw [hk]
        have hmm : Prod.fst (jid, j') ∈ List.map Prod.fst rest :=
          List.mem_map_of_mem Prod.fst h2r
        exact hmm
    · rcases List.mem_cons.1 h2 with he2 | h2r
      · exfalso
        apply hhead
        have hk : xk = jid := (congrArg Prod.fst he2).symm
        rw [hk]
        have hmm : Prod.fst (jid, j) ∈ List.map Prod.fst rest :=
          List.mem_map_of_mem Prod.fst h1r
        exact hmm
      · exact ih htail h1r h2r

theorem no_timer_of_loadJob_none (jobs : List (String × Job)) (jid : String)
    (j : Job) (hnd : (jobs.map Prod.fst).Nodup) (hmem : (jid, j) ∈ jobs)
    (hnone : loadJob j = none) : ¬ registersTimer jobs jid := by
  rintro ⟨tr, htr⟩
  rw [startScheduler_timers] at htr
  rcases List.mem_filterMap.1 htr with ⟨jj, hjj, heq⟩
  obtain ⟨k, jb⟩ := jj
  rcases hload : loadJob jb with _ | tr2
  · rw [hload] at heq
    simp at heq
  · rw [hload] at heq
    obtain ⟨h1, _⟩ : k = jid ∧ tr2 = tr := by simpa [Prod.ext_iff] using heq
    have hjb : jb = j := by
      apply mem_assoc_eq jobs jid jb j hnd _ hmem
      rw [← h1]
      exact hjj
    rw [hjb, hnone] at hload
    exact Option.noConfusion hload

/-- C8: a paused Job registers no timer — `_start_scheduler` skips it with
`continue` before any `add_job` — and since scheduled Executions are
produced only by registered timers, it produces zero Executions no matter
how much time elapses. -/
theorem c8_paused_never_scheduled (jobs : List (String × Job)) (jid : String)
    (j : Job) (hnd : (jobs.map Prod.fst).Nodup) (hmem : (jid, j) ∈ jobs)
    (hp : j.paused = true) : ¬ registersTimer jobs jid :=
  no_timer_of_loadJob_none jobs jid j hnd hmem (by simp [loadJob, hp])

/-- C8 witness: one concrete paused interval Job is never scheduled. -/
theorem c8_paused_never_scheduled_witness :
    ¬ registersTimer [("daily", ⟨"do it", true, "interval", "", none, some 30, ""⟩)]
        "daily" :=
  c8_paused_never_scheduled
    [("daily", ⟨"do it", true, "interval", "", none, some 30, ""⟩)]
    "daily" ⟨"do it", true, "interval", "", none, some 30, ""⟩
    (by decide) (by decide) rfl

/-- C6 (amended): a cron Job whose expression does not split into exactly
five whitespace fields registers no timer, and loading continues: every
job the loader accepts still gets its timer. The skip is silent — no
diagnostic is emitted (see the counterexample). -/
theorem c6_malformed_cron_skipped (jobs : List (String × Job)) (jid : String)
    (j : Job) (hnd : (jobs.map Prod.fst).Nodup) (hmem : (jid, j) ∈ jobs)
    (hst : j.scheduleType = "cron") (h5 : (pySplitWs j.cron).length ≠ 5) :
    ¬ registersTimer jobs jid ∧
    ∀ (jid' : String) (j' : Job) (tr' : Trigger), (jid', j') ∈ jobs →
      loadJob j' = some tr' → (jid', tr') ∈ (startScheduler jobs).1 := by
  constructor
  · apply no_timer_of_loadJob_none jobs jid j hnd hmem
    by_cases hp : j.paused <;> simp [loadJob, hp, hst, h5]
  · intro jid' j' tr' hmem' hload'
    rw [startScheduler_timers]
    exact List.mem_filterMap.2 ⟨(jid', j'), hmem', by simp [hload']⟩

/-- C6 witness: with one malformed and one valid cron Job loaded together,
the malformed one registers nothing and the valid one is scheduled. -/
theorem c6_malformed_cron_skipped_witness :
    (¬ registersTimer
        [("bad", ⟨"check a", false, "cron", "* * *", none, none, ""⟩),
         ("good", ⟨"check b", false, "cron", "0 12 * * 1", none, none, ""⟩)]
        "bad") ∧
    ("good", Trigger.cron "0" "12" "*" "*" "1" none) ∈
      (startScheduler
        [("bad", ⟨"check a", false, "cron", "* * *", none, none, ""⟩),
         ("good", ⟨"check b", false, "cron", "0 12 * * 1", none, none, ""⟩)]).1 := by
  have h := c6_malformed_cron_skipped
    [("bad", ⟨"check a", false, "cron", "* * *", none, none, ""⟩),
     ("good", ⟨"check b", false, "cron", "0 12 * * 1", none, none, ""⟩)]
    "bad" ⟨"check a", false, "cron", "* * *", none, none, ""⟩
    (by decide) (by decide) rfl (by decide)
  exact ⟨h.1, h.2 "good" ⟨"check b", false, "cron", "0 12 * * 1", none, none, ""⟩
    (Trigger.cron "0" "12" "*" "*" "1" none) (by decide) (by decide)⟩

/-- C6 counterexample: the loader skips a malformed cron expression without
emitting any diagnostic — the diagnostics list of `_start_scheduler` is
empty even though a malformed Job is present (the claim asserts the skip
comes with a diagnostic). -/
theorem c6_counterexample :
    (pySplitWs "* * *").length ≠ 5 ∧
    (startScheduler
      [("bad", ⟨"check a", false, "cron", "* * *", none, none, ""⟩),
       ("good", ⟨"check b", false, "cron", "0 12 * * 1", none, none, ""⟩)]).1 =
      [("good", Trigger.cron "0" "12" "*" "*" "1" none)] ∧
    (startScheduler
      [("bad", ⟨"check a", false, "cron", "* * *", none, none, ""⟩),
       ("good", ⟨"check b", false, "cron", "0 12 * * 1", none, none, ""⟩)]).2 = [] := by
  exact ⟨by decide, by decide, rfl⟩

end Server

namespace NatRepr

theorem digitVal_digitChar (d : Nat) (hd : d < 10) :
    digitVal (Nat.digitChar d) = d := by
  interval_cases d <;> decide

theorem digitChar_isDigit (d : Nat) (hd : d < 10) :
    (Nat.digitChar d).isDigit = true := by
  interval_cases d <;> decide

theorem toDigitsCore_eq (f : Nat) :
    ∀ (n : Nat) (ds : List Char), n < f →
      Nat.toDigitsCore 10 f n ds = myDigits n ++ ds := by
  induction f with
  | zero => intro n ds h; omega
  | succ f ih =>
    intro n ds h
    by_cases hdiv : n / 10 = 0
    · have hn : n < 10 := (Nat.div_eq_zero_iff (by omega)).1 hdiv
      have hmod : n % 10 = n := Nat.mod_eq_of_lt hn
      simp only [Nat.toDigitsCore, hdiv, if_true]
      rw [myDigits]
      simp [hn, hmod]
    · have hn0 : n ≠ 0 := fun h0 => hdiv (by simp [h0])
      have h1 : n / 10 < n := Nat.div_lt_self (Nat.pos_of_ne_zero hn0) (by omega)
      have h2 : n / 10 < f := by omega
      have hge : ¬ n < 10 := fun hlt => hdiv ((Nat.div_eq_zero_iff (by omega)).2 hlt)
      simp only [Nat.toDigitsCore, hdiv, if_false]
      rw [ih (n / 10) (Nat.digitChar (n % 10) :: ds) h2]
      have hM : myDigits n = myDigits (n / 10) ++ [Nat.digitChar (n % 10)] := by
        rw [myDigits]
        simp [hge]
      rw [hM, List.append_assoc]
      rfl

theorem toDigits_eq (n : Nat) : Nat.toDigits 10 n = myDigits n := by
  have h := toDigitsCore_eq (n + 1) n [] (by omega)
  simpa [Nat.toDigits] using h

theorem repr_data (n : Nat) : (Nat.repr n).data = myDigits n := by
  show (Nat.toDigits 10 n).asString.data = myDigits n
  rw [toDigits_eq]
  rfl

theorem digitsVal_append_single (l : List Char) (c : Char) :
    digitsVal (l ++ [c]) = 10 * digitsVal l + digitVal c := by
  simp [digitsVal, List.foldl_append]

theorem digitsVal_myDigits (n : Nat) : digitsVal (myDigits n) = n := by
  induction n using Nat.strong_induction_on with
  | _ n ih =>
    by_cases hn : n < 10
    · rw [myDigits]
      simp [hn, digitsVal, digitVal_digitChar n hn]
    · rw [myDigits]
      simp only [hn, dif_neg, not_false_iff]
      rw [digitsVal_append_single]
      have h1 : n / 10 < n := Nat.div_lt_self (by omega) (by omega)
      rw [ih (n / 10) h1, digitVal_digitChar (n % 10) (Nat.mod_lt n (by omega))]
      omega

theorem repr_injective : Function.Injective Nat.repr := by
  intro m n h
  have hd : myDigits m = myDigits n := by
    rw [← repr_data, ← repr_data, h]
  have hv := congrArg digitsVal hd
  rwa [digitsVal_myDigits, digitsVal_myDigits] at hv

theorem myDigits_all_digit (n : Nat) : ∀ c ∈ myDigits n, c.isDigit = true := by
  induction n using Nat.strong_induction_on with
  | _ n ih =>
    intro c hc
    by_cases hn : n < 10
    · rw [myDigits] at hc
      simp [hn] at hc
      rw [hc]
      exact digitChar_isDigit n hn
    · rw [myDigits] at hc
      simp only [hn, dif_neg, not_false_iff] at hc
      rcases List.mem_append.1 hc with h1 | h1
      · exact ih (n / 10) (Nat.div_lt_self (by omega) (by omega)) c h1
      · have hce : c = Nat.digitChar (n % 10) := by simpa using h1
        rw [hce]
        exact digitChar_isDigit _ (Nat.mod_lt n (by omega))

theorem repr_map_isDigit (n : Nat) :
    (Nat.repr n).data.map Char.isDigit =
      List.replicate (Nat.repr n).data.length true := by
  rw [List.eq_replicate_iff]
  refine ⟨by simp, ?_⟩
  intro b hb
  rcases List.mem_map.1 hb with ⟨c, hc, rfl⟩
  rw [repr_data] at hc
  exact myDigits_all_digit n c hc

end NatRepr

namespace Server

theorem string_append_right_cancel (s1 s2 suf : String)
    (h : s1 ++ suf = s2 ++ suf) : s1 = s2 := by
  apply String.ext
  have hd : s1.data ++ suf.data = s2.data ++ suf.data := congrArg String.data h
  exact List.append_cancel_right hd

theorem log_name_ne_error_name (t1 t2 : Nat) :
    Nat.repr t1 ++ ".log" ≠ Nat.repr t2 ++ "_error.log" := by
  intro h
  have hd : (Nat.repr t1).data ++ (".log").data =
      (Nat.repr t2).data ++ ("_error.log").data := congrArg String.data h
  have hl := congrArg List.length hd
  rw [List.length_append, List.length_append] at hl
  have e4 : (".log").data.length = 4 := rfl
  have e10 : ("_error.log").data.length = 10 := rfl
  rw [e4, e10] at hl
  have hmap := congrArg (List.map Char.isDigit) hd
  rw [List.map_append, List.map_append, NatRepr.repr_map_isDigit,
    NatRepr.repr_map_isDigit] at hmap
  have hcnt := congrArg (List.count true) hmap
  rw [List.count_append, List.count_append, List.count_replicate_self,
    List.count_replicate_self] at hcnt
  have c4 : List.count true ((".log").data.map Char.isDigit) = 0 := by decide
  have c10 : List.count true (("_error.log").data.map Char.isDigit) = 0 := by decide
  rw [c4, c10] at hcnt
  omega

/-- C3: one fire of `_run_scheduled_task` writes exactly one Execution
Logger record, and it is the success record built from the chat result
exactly when the chat call returned, the error record built from the
exception text exactly when it raised — never both and never neither (a
record cannot be both: the two names differ). -/
theorem c3_one_record_xor (t : Nat) (task : String)
    (outcome : Except String String) :
    ∃ r, cronLogRecords t task outcome = [r] ∧
      (((∃ res, outcome = .ok res ∧ r = successRecord t task res) ∧
          ¬ ∃ e, r = errorRecord t task e) ∨
        ((∃ e, outcome = .error e ∧ r = errorRecord t task e) ∧
          ¬ ∃ res, r = successRecord t task res)) := by
  cases outcome with
  | ok res =>
    refine ⟨successRecord t task res, rfl, Or.inl ⟨⟨res, rfl, rfl⟩, ?_⟩⟩
    rintro ⟨e, he⟩
    have hname : Nat.repr t ++ ".log" = Nat.repr t ++ "_error.log" :=
      congrArg Prod.fst he
    exact log_name_ne_error_name t t hname
  | error e =>
    refine ⟨errorRecord t task e, rfl, Or.inr ⟨⟨e, rfl, rfl⟩, ?_⟩⟩
    rintro ⟨res, hres⟩
    have hname : Nat.repr t ++ ".log" = Nat.repr t ++ "_error.log" :=
      (congrArg Prod.fst hres).symm
    exact log_name_ne_error_name t t hname

/-- C7 (amended): artifact identities of two Executions are distinct
whenever their completion seconds differ or their outcome kinds differ;
identity is a function of those two data alone, so two Executions
completing within the same second with the same outcome kind share one
identity and the later record overwrites the earlier (see the
counterexample). -/
theorem c7_distinct_identities (e1 e2 : Execution)
    (h : e1.time ≠ e2.time ∨ e1.failed ≠ e2.failed) :
    artifactName e1 ≠ artifactName e2 := by
  intro heq
  rw [artifactName, artifactName] at heq
  cases hf1 : e1.failed with
  | false =>
    cases hf2 : e2.failed with
    | false =>
      rw [hf1, hf2] at heq
      simp only [Bool.false_eq_true, if_false] at heq
      have ht : e1.time = e2.time :=
        NatRepr.repr_injective (string_append_right_cancel _ _ _ heq)
      rcases h with h | h
      · exact h ht
      · rw [hf1, hf2] at h
        exact h rfl
    | true =>
      rw [hf1, hf2] at heq
      simp only [Bool.false_eq_true, if_false, if_true] at heq
      exact log_name_ne_error_name e1.time e2.time heq
  | true =>
    cases hf2 : e2.failed with
    | false =>
      rw [hf1, hf2] at heq
      simp only [Bool.false_eq_true, if_false, if_true] at heq
      exact log_name_ne_error_name e2.time e1.time heq.symm
    | true =>
      rw [hf1, hf2] at heq
      simp only [if_true] at heq
      have ht : e1.time = e2.time :=
        NatRepr.repr_injective (string_append_right_cancel _ _ _ heq)
      rcases h with h | h
      · exact h ht
      · rw [hf1, hf2] at h
        exact h rfl

/-- C7 witness: two successful Executions completing in different seconds
get different artifact names. -/
theorem c7_distinct_identities_witness :
    artifactName ⟨"task a", 1, false⟩ ≠ artifactName ⟨"task b", 2, false⟩ :=
  c7_distinct_identities ⟨"task a", 1, false⟩ ⟨"task b", 2, false⟩
    (Or.inl (by decide))

/-- C7 counterexample: two distinct Executions completing within the same
second with the same outcome kind receive the same artifact name — the
name is the bare second — and writing both records leaves only the later
one: the first is overwritten. -/
theorem c7_counterexample :
    (⟨"task a", 1700000000, false⟩ : Execution) ≠ ⟨"task b", 1700000000, false⟩ ∧
    artifactName ⟨"task a", 1700000000, false⟩ =
      artifactName ⟨"task b", 1700000000, false⟩ ∧
    writeLog (writeLog [] (artifactName ⟨"task a", 1700000000, false⟩) "first record")
        (artifactName ⟨"task b", 1700000000, false⟩) "second record" =
      [(artifactName ⟨"task b", 1700000000, false⟩, "second record")] := by
  refine ⟨by decide, rfl, by decide⟩

end Server

namespace Concurrency

/-- C1: the single-flight claim fails on the code — with two Turns
submitted concurrently and no lock taken on the chat path, the process
reaches a completed state whose Session history interleaves the two
turns: the mutation steps of Turn A are not contiguous, so Session
mutation of one turn crosses the other. -/
theorem c1_interleaving_reachable :
    ∃ s : SysState, Reachable s ∧ s.pcA = turnSteps ∧ s.pcB = turnSteps ∧
      serializedTags (s.history.map Prod.fst) = false := by
  refine ⟨⟨2, 2, [(.A, 0), (.B, 0), (.A, 1), (.B, 1)]⟩, ?_, rfl, rfl, by decide⟩
  have h1 : Step init ⟨1, 0, [(.A, 0)]⟩ := Step.stepA init (by decide)
  have h2 : Step ⟨1, 0, [(.A, 0)]⟩ ⟨1, 1, [(.A, 0), (.B, 0)]⟩ :=
    Step.stepB ⟨1, 0, [(.A, 0)]⟩ (by decide)
  have h3 : Step ⟨1, 1, [(.A, 0), (.B, 0)]⟩
      ⟨2, 1, [(.A, 0), (.B, 0), (.A, 1)]⟩ :=
    Step.stepA ⟨1, 1, [(.A, 0), (.B, 0)]⟩ (by decide)
  have h4 : Step ⟨2, 1, [(.A, 0), (.B, 0), (.A, 1)]⟩
      ⟨2, 2, [(.A, 0), (.B, 0), (.A, 1), (.B, 1)]⟩ :=
    Step.stepB ⟨2, 1, [(.A, 0), (.B, 0), (.A, 1)]⟩ (by decide)
  exact Reachable.tail
    (Reachable.tail (Reachable.tail (Reachable.tail Reachable.refl h1) h2) h3) h4

end Concurrency

namespace AgentModel

/-- C4: a Scheduled Execution runs on a brand-new Session and never
touches the interactive one — the module global `_agent` is unchanged by
`_run_scheduled_task`, the disposable session it runs is independent of
the entire prior process state (in particular of the interactive
history), its history starts empty, and conversely an interactive turn
leaves the cron log directory alone. -/
theorem c4_session_isolation (g g' : ServerState) (profile : Option String)
    (sh : Bool) (task msg reply : String) (t : Nat)
    (outcome : Except String String) :
    (runScheduledTask g profile sh task t outcome).1.interactiveAgent
        = g.interactiveAgent ∧
    (runScheduledTask g profile sh task t outcome).2
        = (runScheduledTask g' profile sh task t outcome).2 ∧
    (mkAgent profile sh).messages = [] ∧
    (interactiveChat g profile sh msg reply).1.cronLogDir = g.cronLogDir :=
  ⟨rfl, rfl, rfl, rfl⟩

end AgentModel

end BrowserPy
